import Mathlib

/-!
# Verification of the medicart line-protocol parsing and bridging layer

Shallow embedding of the Go sources of the medicart repository
(`main.go` desktop uploader and the device bridge server).  Lines of
device-tool output are modelled as `List Char`; the Go standard-library
string helpers used by the code (`strings.TrimSpace`, `strings.HasPrefix`,
`strings.TrimPrefix`, `strings.Split`, `strings.SplitN`, `strings.Contains`,
`strings.ReplaceAll`, `strings.ToUpper`, `strconv.Atoi`,
`strconv.ParseFloat`) are given executable models below.  Go maps with
string keys are modelled as association lists with overwrite-on-insert
(`mapSet`) and zero-value lookup (`mapGet`), which reproduces Go's map
assignment and its empty-string default for missing keys.
-/

namespace Medicart

/-- A line of text, as a list of characters. -/
abbrev Str := List Char

/-- ASCII whitespace recognized by Go's `strings.TrimSpace`
(`unicode.IsSpace` restricted to ASCII, which is all the device protocol
uses). -/
def isSpace (c : Char) : Bool :=
  c == ' ' || c == '\t' || c == '\n' || c == '\x0b' || c == '\x0c' || c == '\r'

/-- Model of `strings.TrimSpace`. -/
def goTrim (l : Str) : Str :=
  ((l.dropWhile isSpace).reverse.dropWhile isSpace).reverse

/-- Model of `strings.Contains(s, c)` for a one-character needle. -/
def hasChar (c : Char) : Str → Bool
  | [] => false
  | x :: l => x == c || hasChar c l

/-- Model of `strings.HasPrefix`. -/
def hasPre : Str → Str → Bool
  | [], _ => true
  | _ :: _, [] => false
  | a :: pre, b :: l => a == b && hasPre pre l

/-- Model of `strings.TrimPrefix`. -/
def trimPre (pre l : Str) : Str :=
  if hasPre pre l then l.drop pre.length else l

/-- Model of `strings.Split(s, sep)` for a one-character separator. -/
def splitSep (sep : Char) : Str → List Str
  | [] => [[]]
  | c :: rest =>
    if c == sep then [] :: splitSep sep rest
    else
      match splitSep sep rest with
      | [] => [[c]]
      | h :: t => (c :: h) :: t

/-- Split a line at the first character satisfying `p`; `none` when no such
character occurs.  `strings.SplitN(s, sep, 2)` returns two pieces exactly
when this returns `some`. -/
def splitFirstP (p : Char → Bool) : Str → Option (Str × Str)
  | [] => none
  | c :: rest =>
    if p c then some ([], rest)
    else
      match splitFirstP p rest with
      | some (a, b) => some (c :: a, b)
      | none => none

/-- Go map assignment `m[k] = v`: overwrite an existing binding, otherwise
append a new one. -/
def mapSet (m : List (Str × Str)) (k v : Str) : List (Str × Str) :=
  match m with
  | [] => [(k, v)]
  | (k', v') :: rest => if k' = k then (k, v) :: rest else (k', v') :: mapSet rest k v

/-- Go map lookup `m[k]` with the zero value `""` for a missing key. -/
def mapGet (m : List (Str × Str)) (k : Str) : Str :=
  match m with
  | [] => []
  | (k', v') :: rest => if k' = k then v' else mapGet rest k

/-- Numeric value of a digit string (no validity check). -/
def digitsVal (l : Str) : Nat :=
  l.foldl (fun a c => a * 10 + (c.toNat - 48)) 0

/-- All characters are decimal digits. -/
def allDigits (l : Str) : Bool := l.all Char.isDigit

/-- Model of `strconv.Atoi`: an optional sign followed by at least one
decimal digit; `none` on any other shape.  (The int64 range check of the
real function is not modelled; no claim involves out-of-range values.) -/
def goAtoi (l : Str) : Option Int :=
  match l with
  | '+' :: r => if allDigits r && !(r == []) then some ((digitsVal r : Int)) else none
  | '-' :: r => if allDigits r && !(r == []) then some (-(digitsVal r : Int)) else none
  | r => if allDigits r && !(r == []) then some ((digitsVal r : Int)) else none

/-- The `val, _ := strconv.Atoi(s)` idiom: the parsed value, with `0` for
any string `Atoi` rejects. -/
def atoi0 (l : Str) : Int := (goAtoi l).getD 0

/-- Decimal mantissa `digits[.digits]` with at least one digit; returns the
digits' value and the number of fractional digits. -/
def parseMant (l : Str) : Option (Nat × Nat) :=
  match splitFirstP (· == '.') l with
  | some (a, b) =>
    if allDigits a && allDigits b && !(a == [] && b == []) then
      some (digitsVal (a ++ b), b.length)
    else none
  | none => if allDigits l && !(l == []) then some (digitsVal l, 0) else none

/-- Optionally signed decimal exponent with at least one digit. -/
def parseExp (l : Str) : Option Int :=
  match l with
  | '+' :: r => if allDigits r && !(r == []) then some ((digitsVal r : Int)) else none
  | '-' :: r => if allDigits r && !(r == []) then some (-(digitsVal r : Int)) else none
  | r => if allDigits r && !(r == []) then some ((digitsVal r : Int)) else none

/-- Unsigned part of the float syntax: mantissa with optional `e`/`E`
exponent.  The exact value is kept as a rational. -/
def goParseFloatPos (l : Str) : Option Rat :=
  match splitFirstP (fun c => c == 'e' || c == 'E') l with
  | some (m, ex) =>
    match parseMant m, parseExp ex with
    | some (n, f), some e => some ((n : Rat) / (10 : Rat) ^ f * (10 : Rat) ^ e)
    | _, _ => none
  | none => (parseMant l).map (fun nf => (nf.1 : Rat) / (10 : Rat) ^ nf.2)

/-- Model of `strconv.ParseFloat(s, 64)` on the decimal forms the device
protocol uses: optional sign, decimal mantissa, optional decimal exponent.
The value is kept exactly as a rational (every concrete value appearing in
a claim, such as `36.5`, is exactly representable in binary64, so the
model and the float agree there).  The special forms `Inf`/`NaN`, hex
floats and digit-group underscores accepted by the real function are not
modelled; no claim involves them. -/
def goParseFloat (l : Str) : Option Rat :=
  match l with
  | '+' :: r => goParseFloatPos r
  | '-' :: r => (goParseFloatPos r).map (fun q => -q)
  | r => goParseFloatPos r

/-- The typed events produced by the four parsers.  Each constructor
mirrors one of the `map[string]interface{}` shapes built in the Go
sources (the `"type"` tag becomes the constructor). -/
inductive Event where
  /-- `{"type":"data","pr":_,"spo2":_}` -/
  | hrData (pr spo2 : Int)
  /-- `{"type":"status","msg":_}` -/
  | status (msg : Str)
  /-- `{"type":"cuff_update","cuff_pressure":_}` -/
  | cuffUpdate (cuffPressure : Int)
  /-- `{"type":"result","sys":_,"dia":_,"map":_,"pr":_,"irr":_}` -/
  | nibpResult (sys dia mapv pr : Int) (irr : Bool)
  /-- `{"type":"error","code":_}` -/
  | nibpError (code : Int)
  /-- `{"type":"data","glu":_}` -/
  | gluData (glu : Int)
  /-- `{"type":"data","temp":_}` -/
  | tempData (temp : Rat)
deriving DecidableEq, Repr

/-- The only parser-level error in the sources: the propagated
`strconv.ParseFloat` failure of `parseTemperatureLine`. -/
inductive PErr where
  | floatErr (s : Str)
deriving DecidableEq, Repr

instance {ε α : Type} [DecidableEq ε] [DecidableEq α] : DecidableEq (Except ε α) := fun x y =>
  match x, y with
  | .ok a, .ok b => if h : a = b then isTrue (by rw [h]) else isFalse (by simp [h])
  | .error a, .error b => if h : a = b then isTrue (by rw [h]) else isFalse (by simp [h])
  | .ok _, .error _ => isFalse (by simp)
  | .error _, .ok _ => isFalse (by simp)

/-- `parseKV` from `main.go`: split on `,`, keep the pieces containing
`=`, trim key and value.  (`strings.SplitN(p, "=", 2)` yields two pieces
exactly when `p` contains `=`, which `splitFirstP` captures.) -/
def parseKV (input : Str) : List (Str × Str) :=
  (splitSep ',' input).foldl
    (fun m p =>
      match splitFirstP (· == '=') p with
      | some (k, v) => mapSet m (goTrim k) (goTrim v)
      | none => m)
    []

/-- `parseHeartRateLine` from `main.go` (identical copy in the bridge
server): `DATA:`-prefixed lines become a heart-rate reading with
zero-defaulted integer fields, `STATUS:`-prefixed lines become a status
event carrying the rest of the trimmed line. -/
def parseHeartRateLine (line : Str) : Except PErr (Option Event) :=
  if hasPre "DATA:".toList (goTrim line) then
    .ok (some (.hrData
      (atoi0 (mapGet (parseKV (trimPre "DATA:".toList (goTrim line))) "PR".toList))
      (atoi0 (mapGet (parseKV (trimPre "DATA:".toList (goTrim line))) "SPO2".toList))))
  else if hasPre "STATUS:".toList (goTrim line) then
    .ok (some (.status (trimPre "STATUS:".toList (goTrim line))))
  else
    .ok none

/-- The NIBP-specific normalization from `main.go`: remove every space,
remove every carriage return, uppercase the line.  (`strings.ToUpper` is
modelled by `Char.toUpper`, which agrees on the ASCII protocol
alphabet.) -/
def normNIBP (line : Str) : Str :=
  (((line.filter (fun c => !(c == ' '))).filter (fun c => !(c == '\r'))).map Char.toUpper)

/-- One step of the NIBP result-map fold from `main.go`: a piece
containing `=` is entered as a key/value pair; otherwise the bare
concatenated forms `MAP…`, `PR…`, `SYS…`, `DIA…` are recognized, in that
order. -/
def nibpPart (m : List (Str × Str)) (p : Str) : List (Str × Str) :=
  if hasChar '=' p then
    match splitFirstP (· == '=') p with
    | some (k, v) => mapSet m k v
    | none => m
  else if hasPre "MAP".toList p then mapSet m "MAP".toList (trimPre "MAP".toList p)
  else if hasPre "PR".toList p then mapSet m "PR".toList (trimPre "PR".toList p)
  else if hasPre "SYS".toList p then mapSet m "SYS".toList (trimPre "SYS".toList p)
  else if hasPre "DIA".toList p then mapSet m "DIA".toList (trimPre "DIA".toList p)
  else m

/-- The key→value map an NIBP result line's payload is merged into. -/
def buildNIBPMap (s : Str) : List (Str × Str) :=
  (splitSep ',' s).foldl nibpPart []

/-- `parseNIBPLine` from `main.go`: normalize, then dispatch on the four
recognized prefixes. -/
def parseNIBPLine (line : Str) : Except PErr (Option Event) :=
  if hasPre "DATA:CUFF_PRESSURE=".toList (normNIBP line) then
    .ok (some (.cuffUpdate (atoi0 (trimPre "DATA:CUFF_PRESSURE=".toList (normNIBP line)))))
  else if hasPre "DATA:NIBP_RESULT:".toList (normNIBP line) then
    .ok (some (.nibpResult
      (atoi0 (mapGet (buildNIBPMap (trimPre "DATA:NIBP_RESULT:".toList (normNIBP line))) "SYS".toList))
      (atoi0 (mapGet (buildNIBPMap (trimPre "DATA:NIBP_RESULT:".toList (normNIBP line))) "DIA".toList))
      (atoi0 (mapGet (buildNIBPMap (trimPre "DATA:NIBP_RESULT:".toList (normNIBP line))) "MAP".toList))
      (atoi0 (mapGet (buildNIBPMap (trimPre "DATA:NIBP_RESULT:".toList (normNIBP line))) "PR".toList))
      (mapGet (buildNIBPMap (trimPre "DATA:NIBP_RESULT:".toList (normNIBP line))) "IRR".toList == "TRUE".toList)))
  else if hasPre "STATUS:NIBP_ERROR=".toList (normNIBP line) then
    .ok (some (.nibpError (atoi0 (trimPre "STATUS:NIBP_ERROR=".toList (normNIBP line)))))
  else if hasPre "STATUS:NIBP_END".toList (normNIBP line) then
    .ok (some (.status "NIBP_END".toList))
  else
    .ok none

/-- `parseGlucoseLine` from `main.go`. -/
def parseGlucoseLine (line : Str) : Except PErr (Option Event) :=
  if hasPre "DATA:GLU=".toList (goTrim line) then
    .ok (some (.gluData (atoi0 (trimPre "DATA:GLU=".toList (goTrim line)))))
  else
    .ok none

/-- `parseTemperatureLine` from `main.go`: the one parser that returns the
numeric-parse failure instead of defaulting. -/
def parseTemperatureLine (line : Str) : Except PErr (Option Event) :=
  if hasPre "DATA:TEMP=".toList (goTrim line) then
    match goParseFloat (trimPre "DATA:TEMP=".toList (goTrim line)) with
    | none => .error (.floatErr (trimPre "DATA:TEMP=".toList (goTrim line)))
    | some v => .ok (some (.tempData v))
  else
    .ok none

/-! ## Forwarding loops, supervisor and HTTP sink -/

/-- What a forwarding loop did: which lines it read from the process's
stdout before stopping, and which events it delivered downstream. -/
structure Trace (α : Type) where
  linesRead : List Str
  delivered : List α
deriving DecidableEq, Repr

/-- The read-parse-forward loop of `runCLIAndStream` in the bridge
server.  The process's stdout is the list of lines; the WebSocket sink is
modelled by `wsWrite`, giving the success of the n-th `ws.WriteJSON`
call.  A parser error skips the line (`continue`); a `nil` event skips
the delivery; a failed write exits the loop (`break`), so the failed
event is not delivered and no further line is read. -/
def runCLIAndStream (parser : Str → Except PErr (Option Event))
    (wsWrite : Nat → Bool) : List Str → Nat → Trace Event
  | [], _ => ⟨[], []⟩
  | l :: ls, n =>
    match parser l with
    | .error _ =>
      let t := runCLIAndStream parser wsWrite ls n
      ⟨l :: t.linesRead, t.delivered⟩
    | .ok none =>
      let t := runCLIAndStream parser wsWrite ls n
      ⟨l :: t.linesRead, t.delivered⟩
    | .ok (some e) =>
      if wsWrite n then
        let t := runCLIAndStream parser wsWrite ls (n + 1)
        ⟨l :: t.linesRead, e :: t.delivered⟩
      else ⟨[l], []⟩

/-- The read-parse-forward loop of `runCLIAndSend` in the desktop
uploader.  Each event is tagged with the patient name
(`dataMap["patient_name"] = patientName`) and handed to `sendData`,
modelled by the success schedule `postOk`; a failed send is only logged
and the loop continues with the next line. -/
def runCLIAndSend (parser : Str → Except PErr (Option Event))
    (postOk : Nat → Bool) (patientName : Str) : List Str → Nat → Trace (Event × Str)
  | [], _ => ⟨[], []⟩
  | l :: ls, n =>
    match parser l with
    | .error _ =>
      let t := runCLIAndSend parser postOk patientName ls n
      ⟨l :: t.linesRead, t.delivered⟩
    | .ok none =>
      let t := runCLIAndSend parser postOk patientName ls n
      ⟨l :: t.linesRead, t.delivered⟩
    | .ok (some e) =>
      let t := runCLIAndSend parser postOk patientName ls (n + 1)
      if postOk n then ⟨l :: t.linesRead, (e, patientName) :: t.delivered⟩
      else ⟨l :: t.linesRead, t.delivered⟩

/-- The supervisor's shared slots from `main.go`: `currentCmd` and
`cancelFunc` (a running session's handles, `none` when idle), guarded by
`cmdMutex`. -/
structure SupState where
  currentCmd : Option Nat
  cancelFunc : Option Nat
deriving DecidableEq, Repr

/-- Result of a start request. -/
inductive StartOutcome where
  | rejected (msg : Str)
  | launched (sid : Nat)
deriving DecidableEq, Repr

/-- The `startProcess` closure of `main.go`, composed with the session
registration the spawned `runCLIAndSend` goroutine performs at once
(setting `cancelFunc` and `currentCmd`): reject with the logged message
when a process is already running, or when the URL or the patient name
is empty, in that order; otherwise launch a session with fresh handle
`newSid`. -/
def startProcess (st : SupState) (targetURL patientName : Str) (newSid : Nat) :
    SupState × StartOutcome :=
  if st.currentCmd.isSome then
    (st, .rejected "Error: A process is already running. Stop it first.".toList)
  else if targetURL == [] then
    (st, .rejected "Error: Please enter a Web Server URL".toList)
  else if patientName == [] then
    (st, .rejected "Error: Please enter a Patient Name".toList)
  else
    (⟨some newSid, some newSid⟩, .launched newSid)

/-- Outcome of the `http.Post` call inside `sendData`: a network-level
failure, or a response with its status code.  (`json.Marshal` of the
fixed string/int/bool map shapes the parsers build cannot fail and is
not modelled.) -/
inductive PostResult where
  | netErr
  | resp (status : Nat)
deriving DecidableEq, Repr

/-- The errors `sendData` can return. -/
inductive SendError where
  | network
  | httpStatus (status : Nat)
deriving DecidableEq, Repr

/-- `sendData` from `main.go`: propagate a network failure; report an
error for a response status of 400 or above; otherwise succeed. -/
def sendData (post : PostResult) : Except SendError Unit :=
  match post with
  | .netErr => .error .network
  | .resp st => if 400 ≤ st then .error (.httpStatus st) else .ok ()

/-! ## Helper lemmas about the string primitives -/

theorem hasPre_self_append (a r : Str) : hasPre a (a ++ r) = true := by
  induction a with
  | nil => rfl
  | cons c a ih => simp [hasPre, ih]

theorem hasPre_iff (a l : Str) : hasPre a l = true ↔ ∃ r, l = a ++ r := by
  induction a generalizing l with
  | nil => simp [hasPre]
  | cons c a ih =>
    cases l with
    | nil => simp [hasPre]
    | cons d l' =>
      simp only [hasPre, Bool.and_eq_true, beq_iff_eq, ih, List.cons_append,
        List.cons.injEq]
      constructor
      · rintro ⟨rfl, r, rfl⟩; exact ⟨r, rfl, rfl⟩
      · rintro ⟨r, rfl, rfl⟩; exact ⟨rfl, r, rfl⟩

theorem hasPre_append_false (a b rest : Str)
    (h1 : hasPre b a = false) (h2 : hasPre a b = false) :
    hasPre b (a ++ rest) = false := by
  induction b generalizing a with
  | nil => simp [hasPre] at h1
  | cons c b ih =>
    cases a with
    | nil => simp [hasPre] at h2
    | cons d a =>
      by_cases hcd : c = d
      · subst hcd
        simp only [hasPre, beq_self_eq_true, Bool.true_and] at h1 h2
        simp [hasPre, ih a h1 h2]
      · simp [hasPre, Ne.symm hcd, hcd]

theorem drop_len_append (a r : Str) : (a ++ r).drop a.length = r := by
  simp

theorem trimPre_self (a r : Str) : trimPre a (a ++ r) = r := by
  simp [trimPre, hasPre_self_append, drop_len_append]

theorem dropWhile_id (p : Char → Bool) (l : Str) (h : ∀ c ∈ l, p c = false) :
    l.dropWhile p = l := by
  cases l with
  | nil => rfl
  | cons c l => simp [List.dropWhile, h c (List.mem_cons_self c l)]

theorem goTrim_clean (l : Str) (h : ∀ c ∈ l, isSpace c = false) : goTrim l = l := by
  unfold goTrim
  rw [dropWhile_id isSpace l h, dropWhile_id isSpace l.reverse
    (fun c hc => h c (List.mem_reverse.mp hc)), List.reverse_reverse]

theorem hasChar_append (c : Char) (a b : Str) :
    hasChar c (a ++ b) = (hasChar c a || hasChar c b) := by
  induction a with
  | nil => simp [hasChar]
  | cons x a ih => simp [hasChar, ih, Bool.or_assoc]

theorem hasChar_false_iff (c : Char) (l : Str) :
    hasChar c l = false ↔ ∀ x ∈ l, ¬(x = c) := by
  induction l with
  | nil => simp [hasChar]
  | cons x l ih => simp [hasChar, ih]

theorem splitSep_no (sep : Char) (b : Str) (h : hasChar sep b = false) :
    splitSep sep b = [b] := by
  induction b with
  | nil => rfl
  | cons c b ih =>
    simp only [hasChar, Bool.or_eq_false_iff] at h
    simp [splitSep, h.1, ih h.2]

theorem splitSep_cons (sep : Char) (a b : Str) (h : hasChar sep a = false) :
    splitSep sep (a ++ sep :: b) = a :: splitSep sep b := by
  induction a with
  | nil => simp [splitSep]
  | cons c a ih =>
    simp only [hasChar, Bool.or_eq_false_iff] at h
    have ht := ih h.2
    simp only [List.cons_append, splitSep, List.append_eq, ht, h.1,
      Bool.false_eq_true, if_false]

theorem goAtoi_chars (v : Str) (n : Int) (h : goAtoi v = some n) :
    ∀ c ∈ v, c.isDigit = true ∨ c = '+' ∨ c = '-' := by
  intro c hc
  unfold goAtoi at h
  split at h
  · next r =>
    rcases List.mem_cons.mp hc with rfl | hc
    · exact Or.inr (Or.inl rfl)
    · refine Or.inl ?_
      split at h
      · next hall =>
        simp only [Bool.and_eq_true, allDigits] at hall
        simpa using List.all_eq_true.mp hall.1 c hc
      · exact absurd h (by simp)
  · next r =>
    rcases List.mem_cons.mp hc with rfl | hc
    · exact Or.inr (Or.inr rfl)
    · refine Or.inl ?_
      split at h
      · next hall =>
        simp only [Bool.and_eq_true, allDigits] at hall
        simpa using List.all_eq_true.mp hall.1 c hc
      · exact absurd h (by simp)
  · refine Or.inl ?_
    split at h
    · next hall =>
      simp only [Bool.and_eq_true, allDigits] at hall
      simpa using List.all_eq_true.mp hall.1 c hc
    · exact absurd h (by simp)

theorem digit_clean (c : Char) (h : c.isDigit = true) :
    isSpace c = false ∧ ¬(c = ',') ∧ ¬(c = '=') := by
  refine ⟨?_, ?_, ?_⟩
  · by_contra hs
    rw [Bool.not_eq_false] at hs
    unfold isSpace at hs
    simp only [Bool.or_eq_true, beq_iff_eq] at hs
    rcases hs with ((((rfl | rfl) | rfl) | rfl) | rfl) | rfl <;> exact absurd h (by decide)
  · rintro rfl; exact absurd h (by decide)
  · rintro rfl; exact absurd h (by decide)

theorem goAtoi_clean (v : Str) (n : Int) (h : goAtoi v = some n) :
    (∀ c ∈ v, isSpace c = false) ∧ hasChar ',' v = false ∧ hasChar '=' v = false := by
  have hch := goAtoi_chars v n h
  refine ⟨?_, ?_, ?_⟩
  · intro c hc
    rcases hch c hc with hd | rfl | rfl
    · exact (digit_clean c hd).1
    · rfl
    · rfl
  · rw [hasChar_false_iff]
    intro c hc
    rcases hch c hc with hd | rfl | rfl
    · exact (digit_clean c hd).2.1
    · simp
    · simp
  · rw [hasChar_false_iff]
    intro c hc
    rcases hch c hc with hd | rfl | rfl
    · exact (digit_clean c hd).2.2
    · simp
    · simp

theorem splitFirstP_append (p : Char → Bool) (k tail : Str)
    (hk : ∀ c ∈ k, p c = false) (c : Char) (hc : p c = true) :
    splitFirstP p (k ++ c :: tail) = some (k, tail) := by
  induction k with
  | nil => simp [splitFirstP, hc]
  | cons x k ih =>
    have hx := hk x (List.mem_cons_self x k)
    have ht := ih (fun c hc => hk c (List.mem_cons_of_mem x hc))
    simp [splitFirstP, hx, ht]

theorem splitFirstP_none (p : Char → Bool) (l : Str) (h : ∀ c ∈ l, p c = false) :
    splitFirstP p l = none := by
  induction l with
  | nil => rfl
  | cons x l ih =>
    have hx := h x (List.mem_cons_self x l)
    have ht := ih (fun c hc => h c (List.mem_cons_of_mem x hc))
    simp [splitFirstP, hx, ht]

/-- `parseKV` on a payload of exactly two `KEY=VALUE` pieces. -/
theorem parseKV_two (k1 v1 k2 v2 : Str)
    (hk1 : ∀ c ∈ k1, ¬(c = '=')) (hk2 : ∀ c ∈ k2, ¬(c = '='))
    (h1c : hasChar ',' (k1 ++ '=' :: v1) = false)
    (h2c : hasChar ',' (k2 ++ '=' :: v2) = false) :
    parseKV (k1 ++ '=' :: (v1 ++ ',' :: (k2 ++ '=' :: v2))) =
      mapSet (mapSet [] (goTrim k1) (goTrim v1)) (goTrim k2) (goTrim v2) := by
  unfold parseKV
  rw [show k1 ++ '=' :: (v1 ++ ',' :: (k2 ++ '=' :: v2)) =
      (k1 ++ '=' :: v1) ++ ',' :: (k2 ++ '=' :: v2) from by simp]
  rw [splitSep_cons ',' _ _ h1c, splitSep_no ',' _ h2c]
  simp only [List.foldl]
  rw [splitFirstP_append _ k1 v1 (fun c hc => by simp [hk1 c hc]) '=' (by simp),
    splitFirstP_append _ k2 v2 (fun c hc => by simp [hk2 c hc]) '=' (by simp)]

/-- The `DATA:` branch of the heart-rate parser. -/
theorem hr_data_eq (line rest : Str) (h : goTrim line = "DATA:".toList ++ rest) :
    parseHeartRateLine line =
      .ok (some (.hrData (atoi0 (mapGet (parseKV rest) "PR".toList))
                         (atoi0 (mapGet (parseKV rest) "SPO2".toList)))) := by
  unfold parseHeartRateLine
  simp only [h, hasPre_self_append, trimPre_self]
  simp

/-- The `STATUS:` branch of the heart-rate parser. -/
theorem hr_status_eq (line rest : Str) (h : goTrim line = "STATUS:".toList ++ rest) :
    parseHeartRateLine line = .ok (some (.status rest)) := by
  have b1 : hasPre "DATA:".toList ("STATUS:".toList ++ rest) = false :=
    hasPre_append_false _ _ _ (by decide) (by decide)
  unfold parseHeartRateLine
  simp only [h, b1, hasPre_self_append, trimPre_self]
  simp

/-- The `DATA:GLU=` branch of the glucose parser. -/
theorem glu_eq (line v : Str) (h : goTrim line = "DATA:GLU=".toList ++ v) :
    parseGlucoseLine line = .ok (some (.gluData (atoi0 v))) := by
  unfold parseGlucoseLine
  simp only [h, hasPre_self_append, trimPre_self]
  simp

/-- The `DATA:TEMP=` branch of the temperature parser, failure case. -/
theorem temp_err_eq (line v : Str) (h : goTrim line = "DATA:TEMP=".toList ++ v)
    (hv : goParseFloat v = none) :
    parseTemperatureLine line = .error (.floatErr v) := by
  unfold parseTemperatureLine
  simp only [h, hasPre_self_append, trimPre_self, hv]
  simp

/-- The `DATA:TEMP=` branch of the temperature parser, success case. -/
theorem temp_ok_eq (line v : Str) (q : Rat) (h : goTrim line = "DATA:TEMP=".toList ++ v)
    (hv : goParseFloat v = some q) :
    parseTemperatureLine line = .ok (some (.tempData q)) := by
  unfold parseTemperatureLine
  simp only [h, hasPre_self_append, trimPre_self, hv]
  simp

/-- The `DATA:NIBP_RESULT:` branch of the NIBP parser. -/
theorem nibp_result_eq (line rest : Str)
    (h : normNIBP line = "DATA:NIBP_RESULT:".toList ++ rest) :
    parseNIBPLine line =
      .ok (some (.nibpResult
        (atoi0 (mapGet (buildNIBPMap rest) "SYS".toList))
        (atoi0 (mapGet (buildNIBPMap rest) "DIA".toList))
        (atoi0 (mapGet (buildNIBPMap rest) "MAP".toList))
        (atoi0 (mapGet (buildNIBPMap rest) "PR".toList))
        (mapGet (buildNIBPMap rest) "IRR".toList == "TRUE".toList))) := by
  have b1 : hasPre "DATA:CUFF_PRESSURE=".toList ("DATA:NIBP_RESULT:".toList ++ rest) = false :=
    hasPre_append_false _ _ _ (by decide) (by decide)
  unfold parseNIBPLine
  simp only [h, b1, hasPre_self_append, trimPre_self]
  simp

/-- The `STATUS:NIBP_ERROR=` branch of the NIBP parser. -/
theorem nibp_error_eq (line c : Str)
    (h : normNIBP line = "STATUS:NIBP_ERROR=".toList ++ c) :
    parseNIBPLine line = .ok (some (.nibpError (atoi0 c))) := by
  have b1 : hasPre "DATA:CUFF_PRESSURE=".toList ("STATUS:NIBP_ERROR=".toList ++ c) = false :=
    hasPre_append_false _ _ _ (by decide) (by decide)
  have b2 : hasPre "DATA:NIBP_RESULT:".toList ("STATUS:NIBP_ERROR=".toList ++ c) = false :=
    hasPre_append_false _ _ _ (by decide) (by decide)
  unfold parseNIBPLine
  simp only [h, b1, b2, hasPre_self_append, trimPre_self]
  simp

/-- The `STATUS:NIBP_END` branch of the NIBP parser. -/
theorem nibp_end_eq (line rest : Str)
    (h : normNIBP line = "STATUS:NIBP_END".toList ++ rest) :
    parseNIBPLine line = .ok (some (.status "NIBP_END".toList)) := by
  have b1 : hasPre "DATA:CUFF_PRESSURE=".toList ("STATUS:NIBP_END".toList ++ rest) = false :=
    hasPre_append_false _ _ _ (by decide) (by decide)
  have b2 : hasPre "DATA:NIBP_RESULT:".toList ("STATUS:NIBP_END".toList ++ rest) = false :=
    hasPre_append_false _ _ _ (by decide) (by decide)
  have b3 : hasPre "STATUS:NIBP_ERROR=".toList ("STATUS:NIBP_END".toList ++ rest) = false :=
    hasPre_append_false _ _ _ (by decide) (by decide)
  unfold parseNIBPLine
  simp only [h, b1, b2, b3, hasPre_self_append]
  simp

/-! ## Claim theorems -/

/-- C3: the temperature parser maps `DATA:TEMP=36.5` to a data event with
value 36.5, and for every `DATA:TEMP=`-prefixed line whose value fails to
parse as a float it propagates the parse failure as an error (no event,
no zero default), e.g. for `DATA:TEMP=abc`. -/
theorem temperature_parse_and_propagate :
    parseTemperatureLine "DATA:TEMP=36.5".toList = .ok (some (.tempData ((365 : Rat) / 10))) ∧
    (∀ line v, goTrim line = "DATA:TEMP=".toList ++ v → goParseFloat v = none →
      parseTemperatureLine line = .error (.floatErr v)) ∧
    parseTemperatureLine "DATA:TEMP=abc".toList = .error (.floatErr "abc".toList) := by
  have hv : goParseFloat "36.5".toList = some ((365 : Rat) / 10) := by
    show goParseFloatPos "36.5".toList = _
    unfold goParseFloatPos
    rw [show splitFirstP (fun c => c == 'e' || c == 'E') "36.5".toList = none from by decide,
      show parseMant "36.5".toList = some (365, 1) from by decide]
    norm_num
  refine ⟨temp_ok_eq _ "36.5".toList _ (by decide) hv, ?_, by decide⟩
  intro line v h hv
  exact temp_err_eq line v h hv

/-- C3 witness: the error-propagation part applied at the concrete line
`DATA:TEMP=1.2.3`. -/
theorem temperature_parse_and_propagate_witness :
    parseTemperatureLine "DATA:TEMP=1.2.3".toList = .error (.floatErr "1.2.3".toList) :=
  temperature_parse_and_propagate.2.1 _ "1.2.3".toList (by decide) (by decide)

/-- C4: during the forwarding loop, a failed WebSocket write terminates
the session (no further lines are read after the first failed write, and
the failed event is not delivered), while a failed HTTP forward does not:
that loop reads every line of the stream regardless of delivery failures,
and after a failed send it continues exactly as the loop on the
remaining lines. -/
theorem delivery_failure_asymmetry :
    (∀ parser wsWrite (l : Str) ls n e, parser l = .ok (some e) → wsWrite n = false →
      runCLIAndStream parser wsWrite (l :: ls) n = ⟨[l], []⟩) ∧
    (∀ parser postOk patient (lines : List Str) n,
      (runCLIAndSend parser postOk patient lines n).linesRead = lines) ∧
    (∀ parser postOk patient (l : Str) ls n e, parser l = .ok (some e) → postOk n = false →
      runCLIAndSend parser postOk patient (l :: ls) n =
        ⟨l :: (runCLIAndSend parser postOk patient ls (n + 1)).linesRead,
         (runCLIAndSend parser postOk patient ls (n + 1)).delivered⟩) := by
  refine ⟨?_, ?_, ?_⟩
  · intro parser wsWrite l ls n e he hw
    simp [runCLIAndStream, he, hw]
  · intro parser postOk patient lines
    induction lines with
    | nil => intro n; simp [runCLIAndSend]
    | cons l ls ih =>
      intro n
      rcases hp : parser l with err | o
      · simp [runCLIAndSend, hp, ih]
      · rcases o with _ | e
        · simp [runCLIAndSend, hp, ih]
        · rcases hk : postOk n with _ | _ <;> simp [runCLIAndSend, hp, hk, ih]
  · intro parser postOk patient l ls n e he hk
    simp [runCLIAndSend, he, hk]

/-- C4 witness: with a glucose stream of two result lines, an
always-failing WebSocket sink stops the session after the first line,
while an HTTP sink failing on the first delivery still reads both
lines. -/
theorem delivery_failure_asymmetry_witness :
    runCLIAndStream parseGlucoseLine (fun _ => false)
      ["DATA:GLU=5".toList, "DATA:GLU=6".toList] 0 = ⟨["DATA:GLU=5".toList], []⟩ ∧
    (runCLIAndSend parseGlucoseLine (fun n => !(n == 0)) "p".toList
      ["DATA:GLU=5".toList, "DATA:GLU=6".toList] 0).linesRead =
        ["DATA:GLU=5".toList, "DATA:GLU=6".toList] :=
  ⟨delivery_failure_asymmetry.1 _ _ _ _ 0 (.gluData 5) (by decide) rfl,
   delivery_failure_asymmetry.2.1 _ _ _ _ 0⟩

/-- C5: a start request arriving while a session is already active is
rejected with the explicit already-running message, the supervisor state
is left unchanged (the active session keeps its handles), and no second
session is launched. -/
theorem start_rejected_when_active (st : SupState) (u p : Str) (sid c : Nat)
    (h : st.currentCmd = some c) :
    startProcess st u p sid =
      (st, .rejected "Error: A process is already running. Stop it first.".toList) := by
  simp [startProcess, h]

/-- C5 witness: a second start request against a state holding session 1
is rejected and leaves the state intact. -/
theorem start_rejected_when_active_witness :
    startProcess ⟨some 1, some 1⟩ "http://x".toList "pat".toList 2 =
      (⟨some 1, some 1⟩, .rejected "Error: A process is already running. Stop it first.".toList) :=
  start_rejected_when_active ⟨some 1, some 1⟩ _ _ 2 1 rfl

/-- C8: a line matching none of a parser's recognized shapes yields no
event and no error, for each of the four parsers. -/
theorem unrecognized_line_no_event :
    (∀ line, hasPre "DATA:".toList (goTrim line) = false →
      hasPre "STATUS:".toList (goTrim line) = false →
      parseHeartRateLine line = .ok none) ∧
    (∀ line, hasPre "DATA:CUFF_PRESSURE=".toList (normNIBP line) = false →
      hasPre "DATA:NIBP_RESULT:".toList (normNIBP line) = false →
      hasPre "STATUS:NIBP_ERROR=".toList (normNIBP line) = false →
      hasPre "STATUS:NIBP_END".toList (normNIBP line) = false →
      parseNIBPLine line = .ok none) ∧
    (∀ line, hasPre "DATA:GLU=".toList (goTrim line) = false →
      parseGlucoseLine line = .ok none) ∧
    (∀ line, hasPre "DATA:TEMP=".toList (goTrim line) = false →
      parseTemperatureLine line = .ok none) := by
  refine ⟨?_, ?_, ?_, ?_⟩
  · intro line h1 h2
    unfold parseHeartRateLine
    simp only [h1, h2]
    simp
  · intro line h1 h2 h3 h4
    unfold parseNIBPLine
    simp only [h1, h2, h3, h4]
    simp
  · intro line h1
    unfold parseGlucoseLine
    simp only [h1]
    simp
  · intro line h1
    unfold parseTemperatureLine
    simp only [h1]
    simp

/-- C8 witness: the empty line and the line `NOISE` yield no event and no
error for every parser. -/
theorem unrecognized_line_no_event_witness :
    parseHeartRateLine "NOISE".toList = .ok none ∧
    parseNIBPLine "NOISE".toList = .ok none ∧
    parseGlucoseLine "".toList = .ok none ∧
    parseTemperatureLine "NOISE".toList = .ok none :=
  ⟨unrecognized_line_no_event.1 _ (by decide) (by decide),
   unrecognized_line_no_event.2.1 _ (by decide) (by decide) (by decide) (by decide),
   unrecognized_line_no_event.2.2.1 _ (by decide),
   unrecognized_line_no_event.2.2.2 _ (by decide)⟩

/-- C9 counterexample: a `302` response status is not in the 2xx range,
yet `sendData` returns success for it — the code only treats statuses of
400 and above as errors, so the claimed "error iff non-2xx" equivalence
fails. -/
theorem sendData_non2xx_success :
    ¬(200 ≤ 302 ∧ 302 ≤ 299) ∧ sendData (.resp 302) = .ok () :=
  ⟨by omega, rfl⟩

/-- C9 amended: `sendData` returns an error if and only if the POST
fails at the network level or the response status is at least 400; any
response with status below 400 (2xx, but also e.g. 302 or 304) is
success. -/
theorem sendData_error_iff (post : PostResult) :
    (∃ e, sendData post = .error e) ↔
      post = .netErr ∨ ∃ st, post = .resp st ∧ 400 ≤ st := by
  cases post with
  | netErr => simp [sendData]
  | resp st =>
    by_cases h : 400 ≤ st <;> simp [sendData, h]

/-- C9 amended witness: a network failure and a 500 response are errors;
instantiates the equivalence at `resp 500`. -/
theorem sendData_error_iff_witness :
    ∃ e, sendData (.resp 500) = .error e :=
  (sendData_error_iff (.resp 500)).mpr (Or.inr ⟨500, rfl, by omega⟩)

/-- C10 (implicit): the `DATA:` prefix alone suffices for the heart-rate
parser to emit a data event — the fields are read from whatever
key/value pairs follow, defaulting to 0 — so `DATA:garbage` is not
dropped but yields a zero-filled reading. -/
theorem hr_prefix_sufficient :
    (∀ line rest, goTrim line = "DATA:".toList ++ rest →
      parseHeartRateLine line =
        .ok (some (.hrData (atoi0 (mapGet (parseKV rest) "PR".toList))
                           (atoi0 (mapGet (parseKV rest) "SPO2".toList))))) ∧
    parseHeartRateLine "DATA:garbage".toList = .ok (some (.hrData 0 0)) := by
  exact ⟨hr_data_eq, by decide⟩

/-- C10 witness: the general part applied at the line `DATA:xyz`. -/
theorem hr_prefix_sufficient_witness :
    parseHeartRateLine "DATA:xyz".toList = .ok (some (.hrData 0 0)) :=
  (hr_prefix_sufficient.1 _ "xyz".toList (by decide)).trans (by decide)

/-- C6: in every integer-field parser (heart-rate `PR`/`SPO2`, glucose
`GLU`, NIBP `SYS`/`DIA`/`MAP`/`PR` and the NIBP error code), a value that
`Atoi` rejects coerces to 0 in the produced event, and these parsers
never return an error at all. -/
theorem integer_coercion_default :
    (∀ line, (∃ r, parseHeartRateLine line = .ok r) ∧
      (∃ r, parseNIBPLine line = .ok r) ∧ (∃ r, parseGlucoseLine line = .ok r)) ∧
    (∀ line rest, goTrim line = "DATA:".toList ++ rest →
      goAtoi (mapGet (parseKV rest) "PR".toList) = none →
      goAtoi (mapGet (parseKV rest) "SPO2".toList) = none →
      parseHeartRateLine line = .ok (some (.hrData 0 0))) ∧
    (∀ line v, goTrim line = "DATA:GLU=".toList ++ v → goAtoi v = none →
      parseGlucoseLine line = .ok (some (.gluData 0))) ∧
    (∀ line c, normNIBP line = "STATUS:NIBP_ERROR=".toList ++ c → goAtoi c = none →
      parseNIBPLine line = .ok (some (.nibpError 0))) ∧
    (∀ line rest, normNIBP line = "DATA:NIBP_RESULT:".toList ++ rest →
      goAtoi (mapGet (buildNIBPMap rest) "SYS".toList) = none →
      goAtoi (mapGet (buildNIBPMap rest) "DIA".toList) = none →
      goAtoi (mapGet (buildNIBPMap rest) "MAP".toList) = none →
      goAtoi (mapGet (buildNIBPMap rest) "PR".toList) = none →
      ∃ irr, parseNIBPLine line = .ok (some (.nibpResult 0 0 0 0 irr))) := by
  refine ⟨?_, ?_, ?_, ?_, ?_⟩
  · intro line
    refine ⟨?_, ?_, ?_⟩
    · unfold parseHeartRateLine
      repeat' split
      all_goals exact ⟨_, rfl⟩
    · unfold parseNIBPLine
      repeat' split
      all_goals exact ⟨_, rfl⟩
    · unfold parseGlucoseLine
      repeat' split
      all_goals exact ⟨_, rfl⟩
  · intro line rest h h1 h2
    rw [hr_data_eq line rest h]
    simp only [atoi0, h1, h2]
    rfl
  · intro line v h hv
    rw [glu_eq line v h]
    simp only [atoi0, hv]
    rfl
  · intro line c h hc
    rw [nibp_error_eq line c h]
    simp only [atoi0, hc]
    rfl
  · intro line rest h h1 h2 h3 h4
    refine ⟨mapGet (buildNIBPMap rest) "IRR".toList == "TRUE".toList, ?_⟩
    rw [nibp_result_eq line rest h]
    simp only [atoi0, h1, h2, h3, h4]
    rfl

/-- C6 witness: non-numeric values in heart-rate, glucose and NIBP error
lines coerce to 0 without any error. -/
theorem integer_coercion_default_witness :
    parseHeartRateLine "DATA:PR=abc,SPO2=9x".toList = .ok (some (.hrData 0 0)) ∧
    parseGlucoseLine "DATA:GLU=abc".toList = .ok (some (.gluData 0)) ∧
    parseNIBPLine "STATUS:NIBP_ERROR=oops".toList = .ok (some (.nibpError 0)) :=
  ⟨integer_coercion_default.2.1 _ "PR=abc,SPO2=9x".toList (by decide) (by decide) (by decide),
   integer_coercion_default.2.2.1 _ "abc".toList (by decide) (by decide),
   integer_coercion_default.2.2.2.1 _ "OOPS".toList (by decide) (by decide)⟩

/-- C1: the NIBP parser's output depends only on the normalized line
(spaces removed anywhere, carriage returns removed, uppercased), so
parsing is insensitive to letter case and spaces; inside a result line
the `KEY=VALUE` form and the bare `KEY<digits>` form update the merged
key→value map identically for the keys `SYS`, `DIA`, `MAP`, `PR`; and the
two spec example lines parse to the same numeric fields, with mixed case
parsing identically to uppercase. -/
theorem nibp_dual_form_insensitive :
    (∀ l1 l2, normNIBP l1 = normNIBP l2 → parseNIBPLine l1 = parseNIBPLine l2) ∧
    (∀ m d key,
      (key = "SYS".toList ∨ key = "DIA".toList ∨ key = "MAP".toList ∨ key = "PR".toList) →
      hasChar '=' d = false →
      nibpPart m (key ++ '=' :: d) = nibpPart m (key ++ d)) ∧
    parseNIBPLine "DATA:NIBP_RESULT:SYS=110,DIA=70,MAP=85,PR=72,IRR=False".toList =
      .ok (some (.nibpResult 110 70 85 72 false)) ∧
    parseNIBPLine "DATA:NIBP_RESULT:SYS110,DIA70,MAP85,PR72".toList =
      .ok (some (.nibpResult 110 70 85 72 false)) ∧
    parseNIBPLine "data:nibp_result:sys=110,dia=70".toList =
      parseNIBPLine "DATA:NIBP_RESULT:SYS=110,DIA=70".toList ∧
    parseNIBPLine " DATA: NIBP_RESULT: SYS = 110 , DIA = 70".toList =
      parseNIBPLine "DATA:NIBP_RESULT:SYS=110,DIA=70".toList := by
  refine ⟨?_, ?_, by decide, by decide, by decide, by decide⟩
  · intro l1 l2 h
    unfold parseNIBPLine
    rw [h]
  · intro m d key hkey hd
    rcases hkey with rfl | rfl | rfl | rfl
    · have heq : hasChar '=' ("SYS".toList ++ '=' :: d) = true := by
        rw [hasChar_append]; simp [hasChar]
      have hbare : hasChar '=' ("SYS".toList ++ d) = false := by
        rw [hasChar_append, hd, show hasChar '=' "SYS".toList = false from by decide]
        rfl
      have hsplit := splitFirstP_append (· == '=') "SYS".toList d (by decide) '=' (by decide)
      have b1 : hasPre "MAP".toList ("SYS".toList ++ d) = false :=
        hasPre_append_false _ _ _ (by decide) (by decide)
      have b2 : hasPre "PR".toList ("SYS".toList ++ d) = false :=
        hasPre_append_false _ _ _ (by decide) (by decide)
      simp only [nibpPart, heq, hsplit, hbare, b1, b2, hasPre_self_append, trimPre_self]
      simp
    · have heq : hasChar '=' ("DIA".toList ++ '=' :: d) = true := by
        rw [hasChar_append]; simp [hasChar]
      have hbare : hasChar '=' ("DIA".toList ++ d) = false := by
        rw [hasChar_append, hd, show hasChar '=' "DIA".toList = false from by decide]
        rfl
      have hsplit := splitFirstP_append (· == '=') "DIA".toList d (by decide) '=' (by decide)
      have b1 : hasPre "MAP".toList ("DIA".toList ++ d) = false :=
        hasPre_append_false _ _ _ (by decide) (by decide)
      have b2 : hasPre "PR".toList ("DIA".toList ++ d) = false :=
        hasPre_append_false _ _ _ (by decide) (by decide)
      have b3 : hasPre "SYS".toList ("DIA".toList ++ d) = false :=
        hasPre_append_false _ _ _ (by decide) (by decide)
      simp only [nibpPart, heq, hsplit, hbare, b1, b2, b3, hasPre_self_append, trimPre_self]
      simp
    · have heq : hasChar '=' ("MAP".toList ++ '=' :: d) = true := by
        rw [hasChar_append]; simp [hasChar]
      have hbare : hasChar '=' ("MAP".toList ++ d) = false := by
        rw [hasChar_append, hd, show hasChar '=' "MAP".toList = false from by decide]
        rfl
      have hsplit := splitFirstP_append (· == '=') "MAP".toList d (by decide) '=' (by decide)
      simp only [nibpPart, heq, hsplit, hbare, hasPre_self_append, trimPre_self]
      simp
    · have heq : hasChar '=' ("PR".toList ++ '=' :: d) = true := by
        rw [hasChar_append]; simp [hasChar]
      have hbare : hasChar '=' ("PR".toList ++ d) = false := by
        rw [hasChar_append, hd, show hasChar '=' "PR".toList = false from by decide]
        rfl
      have hsplit := splitFirstP_append (· == '=') "PR".toList d (by decide) '=' (by decide)
      have b1 : hasPre "MAP".toList ("PR".toList ++ d) = false :=
        hasPre_append_false _ _ _ (by decide) (by decide)
      simp only [nibpPart, heq, hsplit, hbare, b1, hasPre_self_append, trimPre_self]
      simp

/-- C1 witness: the normalization-insensitivity part and the dual-form
part, instantiated concretely. -/
theorem nibp_dual_form_insensitive_witness :
    parseNIBPLine "DATA:NIBP_RESULT:SYS=1".toList =
      parseNIBPLine "data: nibp_result: sys=1".toList ∧
    nibpPart [] ("DIA".toList ++ '=' :: "70".toList) = nibpPart [] ("DIA".toList ++ "70".toList) :=
  ⟨nibp_dual_form_insensitive.1 _ _ (by decide),
   nibp_dual_form_insensitive.2.1 [] "70".toList "DIA".toList (Or.inr (Or.inl rfl)) (by decide)⟩

/-- C2: in an NIBP result event the `irr` field is true if and only if
the `IRR` entry of the merged key→value map equals the literal `TRUE`
after normalization (false when absent or any other value), and every
line whose normalized form has prefix `STATUS:NIBP_END` (no `=`
required) parses to a status event with message exactly `NIBP_END`. -/
theorem nibp_irr_and_end :
    (∀ line rest sys dia mp pr irr,
      normNIBP line = "DATA:NIBP_RESULT:".toList ++ rest →
      parseNIBPLine line = .ok (some (.nibpResult sys dia mp pr irr)) →
      (irr = true ↔ mapGet (buildNIBPMap rest) "IRR".toList = "TRUE".toList)) ∧
    parseNIBPLine "DATA:NIBP_RESULT:SYS=110,IRR=True".toList =
      .ok (some (.nibpResult 110 0 0 0 true)) ∧
    parseNIBPLine "DATA:NIBP_RESULT:SYS=110,IRR=False".toList =
      .ok (some (.nibpResult 110 0 0 0 false)) ∧
    parseNIBPLine "DATA:NIBP_RESULT:SYS=110".toList =
      .ok (some (.nibpResult 110 0 0 0 false)) ∧
    (∀ line, hasPre "STATUS:NIBP_END".toList (normNIBP line) = true →
      parseNIBPLine line = .ok (some (.status "NIBP_END".toList))) := by
  refine ⟨?_, by decide, by decide, by decide, ?_⟩
  · intro line rest sys dia mp pr irr h hp
    have heq := nibp_result_eq line rest h
    rw [hp] at heq
    simp only [Except.ok.injEq, Option.some.injEq, Event.nibpResult.injEq] at heq
    rw [heq.2.2.2.2]
    simp
  · intro line hp
    obtain ⟨rest, hr⟩ := (hasPre_iff _ _).mp hp
    exact nibp_end_eq line rest hr

/-- C2 witness: the `irr` equivalence at a line carrying `IRR=TRUE`, and
the `STATUS:NIBP_END` rule at a lower-case, end-suffixed line. -/
theorem nibp_irr_and_end_witness :
    (true = true ↔
      mapGet (buildNIBPMap "SYS=110,IRR=TRUE".toList) "IRR".toList = "TRUE".toList) ∧
    parseNIBPLine "status: nibp_end now".toList = .ok (some (.status "NIBP_END".toList)) :=
  ⟨nibp_irr_and_end.1 "DATA:NIBP_RESULT:SYS=110,IRR=TRUE".toList
      "SYS=110,IRR=TRUE".toList 110 0 0 0 true (by decide) (by decide),
   nibp_irr_and_end.2.2.2.2 _ (by decide)⟩

/-- C7: for every well-formed heart-rate line `DATA:PR=<p>,SPO2=<s>`
(after trimming), the parser yields exactly the data event `(p, s)`; the
pairs are order-independent; when a key repeats, the last occurrence
wins; keys are case-sensitive (lower-case keys are not matched); and
every `STATUS:`-prefixed line yields a status event whose message is the
remainder of the trimmed line verbatim. -/
theorem hr_wellformed_pairs :
    (∀ line v w p s,
      goTrim line = "DATA:PR=".toList ++ v ++ ",SPO2=".toList ++ w →
      goAtoi v = some p → goAtoi w = some s →
      parseHeartRateLine line = .ok (some (.hrData p s))) ∧
    (∀ line v w p s,
      goTrim line = "DATA:SPO2=".toList ++ w ++ ",PR=".toList ++ v →
      goAtoi v = some p → goAtoi w = some s →
      parseHeartRateLine line = .ok (some (.hrData p s))) ∧
    (∀ line v w s,
      goTrim line = "DATA:PR=".toList ++ v ++ ",PR=".toList ++ w →
      hasChar ',' v = false → goAtoi w = some s →
      parseHeartRateLine line = .ok (some (.hrData s 0))) ∧
    parseHeartRateLine "DATA:pr=75,spo2=98".toList = .ok (some (.hrData 0 0)) ∧
    (∀ line rest, goTrim line = "STATUS:".toList ++ rest →
      parseHeartRateLine line = .ok (some (.status rest))) := by
  refine ⟨?_, ?_, ?_, by decide, ?_⟩
  · intro line v w p s h hv hw
    obtain ⟨hvs, hvc, hve⟩ := goAtoi_clean v p hv
    obtain ⟨hws, hwc, hwe⟩ := goAtoi_clean w s hw
    have h' : goTrim line =
        "DATA:".toList ++ ("PR".toList ++ '=' :: (v ++ ',' :: ("SPO2".toList ++ '=' :: w))) := by
      rw [h]; simp only [List.append_assoc]; rfl
    rw [hr_data_eq line _ h']
    have h1c : hasChar ',' ("PR".toList ++ '=' :: v) = false := by
      rw [hasChar_append]
      simp [hasChar, hvc]
    have h2c : hasChar ',' ("SPO2".toList ++ '=' :: w) = false := by
      rw [hasChar_append]
      simp [hasChar, hwc]
    rw [parseKV_two "PR".toList v "SPO2".toList w (by decide) (by decide) h1c h2c,
      goTrim_clean v hvs, goTrim_clean w hws,
      show goTrim "PR".toList = "PR".toList from by decide,
      show goTrim "SPO2".toList = "SPO2".toList from by decide]
    have hne : ¬("PR".toList = "SPO2".toList) := by decide
    simp only [mapSet, mapGet, hne, if_neg, if_pos, atoi0, hv, hw]
    simp [atoi0, hv, hw]
  · intro line v w p s h hv hw
    obtain ⟨hvs, hvc, hve⟩ := goAtoi_clean v p hv
    obtain ⟨hws, hwc, hwe⟩ := goAtoi_clean w s hw
    have h' : goTrim line =
        "DATA:".toList ++ ("SPO2".toList ++ '=' :: (w ++ ',' :: ("PR".toList ++ '=' :: v))) := by
      rw [h]; simp only [List.append_assoc]; rfl
    rw [hr_data_eq line _ h']
    have h1c : hasChar ',' ("SPO2".toList ++ '=' :: w) = false := by
      rw [hasChar_append]
      simp [hasChar, hwc]
    have h2c : hasChar ',' ("PR".toList ++ '=' :: v) = false := by
      rw [hasChar_append]
      simp [hasChar, hvc]
    rw [parseKV_two "SPO2".toList w "PR".toList v (by decide) (by decide) h1c h2c,
      goTrim_clean v hvs, goTrim_clean w hws,
      show goTrim "PR".toList = "PR".toList from by decide,
      show goTrim "SPO2".toList = "SPO2".toList from by decide]
    have hne : ¬("SPO2".toList = "PR".toList) := by decide
    simp only [mapSet, mapGet, hne, if_neg, if_pos, atoi0, hv, hw]
    simp [atoi0, hv, hw]
  · intro line v w s h hvc hw
    obtain ⟨hws, hwc, hwe⟩ := goAtoi_clean w s hw
    have h' : goTrim line =
        "DATA:".toList ++ ("PR".toList ++ '=' :: (v ++ ',' :: ("PR".toList ++ '=' :: w))) := by
      rw [h]; simp only [List.append_assoc]; rfl
    rw [hr_data_eq line _ h']
    have h1c : hasChar ',' ("PR".toList ++ '=' :: v) = false := by
      rw [hasChar_append]
      simp [hasChar, hvc]
    have h2c : hasChar ',' ("PR".toList ++ '=' :: w) = false := by
      rw [hasChar_append]
      simp [hasChar, hwc]
    rw [parseKV_two "PR".toList v "PR".toList w (by decide) (by decide) h1c h2c,
      goTrim_clean w hws,
      show goTrim "PR".toList = "PR".toList from by decide]
    have hne : ¬("PR".toList = "SPO2".toList) := by decide
    simp only [mapSet, mapGet, hne, if_neg, if_pos, atoi0, hw]
    simp [atoi0, hw, goAtoi]
  · intro line rest h
    exact hr_status_eq line rest h

/-- C7 witness: the four quantified parts instantiated at concrete
well-formed, swapped, duplicated-key and status lines. -/
theorem hr_wellformed_pairs_witness :
    parseHeartRateLine "DATA:PR=75,SPO2=98".toList = .ok (some (.hrData 75 98)) ∧
    parseHeartRateLine "DATA:SPO2=98,PR=75".toList = .ok (some (.hrData 75 98)) ∧
    parseHeartRateLine "DATA:PR=10,PR=20".toList = .ok (some (.hrData 20 0)) ∧
    parseHeartRateLine "STATUS:PROBE_OFF".toList = .ok (some (.status "PROBE_OFF".toList)) :=
  ⟨hr_wellformed_pairs.1 _ "75".toList "98".toList 75 98 (by decide) (by decide) (by decide),
   hr_wellformed_pairs.2.1 _ "75".toList "98".toList 75 98 (by decide) (by decide) (by decide),
   hr_wellformed_pairs.2.2.1 _ "10".toList "20".toList 20 (by decide) (by decide) (by decide),
   hr_wellformed_pairs.2.2.2.2 _ "PROBE_OFF".toList (by decide)⟩

end Medicart
